import Mathlib

/- Verification of the ed-exo-db-bootstrap pipeline.

   Phase 1 (src/index.js, loader half): a streaming JSON loader that filters
   codex records by hud_category, coerces coordinate fields with parseFloat,
   and inserts rows into the codex_entries table in batches of 1000.

   Phase 2 (src/index.js, normalizer half): createNormalizedTables,
   normalizeData and cleanUpColumns extract species, regions, systems and
   bodies into reference tables, backfill foreign keys and drop the
   superseded flat columns.

   The embedding is shallow: JS values are an inductive type, the
   database is an explicit state structure, SQL statements become pure
   functions on it, and fallible statements return Except. -/

set_option autoImplicit false

namespace EdExo

/-- A JavaScript value as it can appear in a parsed codex.json entry field.
Numbers are modelled as rationals (finite doubles; NaN and Infinity do not
occur in the source data and are not representable). -/
inductive JValue where
  | str : String → JValue
  | num : Rat → JValue
  | null : JValue
  | undef : JValue
deriving DecidableEq, Repr

/-- Whitespace skipped by JS parseFloat before the number: ECMA-262's
WhiteSpace (TAB, VT, FF, SP, NBSP, ZWNBSP and every Space_Separator
character) together with the LineTerminator set (LF, CR, LS, PS). -/
def jsSpace (c : Char) : Bool :=
  c == '\t' || c == '\n' || c == '\u000B' || c == '\u000C' || c == '\r' || c == ' '
  || c == '\u00A0' || c == '\u1680' || c == '\u2000' || c == '\u2001' || c == '\u2002'
  || c == '\u2003' || c == '\u2004' || c == '\u2005' || c == '\u2006' || c == '\u2007'
  || c == '\u2008' || c == '\u2009' || c == '\u200A' || c == '\u202F' || c == '\u205F'
  || c == '\u3000' || c == '\uFEFF' || c == '\u2028' || c == '\u2029'

/-- The result of JS parseFloat: a finite double (modelled as a rational),
one of the two infinities, or NaN. The loader stores this result in the
row unchanged, so NaN - the null/empty marker of the spec - is kept
distinct from the infinities. -/
inductive JsNum where
  | fin : Rat → JsNum
  | posInf : JsNum
  | negInf : JsNum
  | nan : JsNum
deriving DecidableEq, Repr

/-- Does the input start with the literal Infinity (the one non-decimal
alternative of StrDecimalLiteral after the sign)? -/
def isInfinityPrefix (l : List Char) : Bool :=
  decide (l.take 8 = ['I', 'n', 'f', 'i', 'n', 'i', 't', 'y'])

/-- Value of a list of decimal digit characters. -/
def digitsToNat (l : List Char) : Nat := l.foldl (fun a c => 10 * a + (c.toNat - 48)) 0

/-- Optional leading sign of a JS number literal. -/
def parseSign (l : List Char) : Int × List Char :=
  match l with
  | [] => (1, [])
  | c :: r => if c = '+' then (1, r) else if c = '-' then (-1, r) else (1, c :: r)

/-- Fractional part after the integer digits: consumed only when the next
character is a decimal point. Returns the fraction digits and the rest. -/
def splitFrac (l : List Char) : List Char × List Char :=
  match l with
  | [] => ([], [])
  | c :: r => if c = '.' then (r.takeWhile Char.isDigit, r.dropWhile Char.isDigit) else ([], c :: r)

/-- Optional exponent part of a JS number literal (ignored when it has no
digits, exactly as JS parseFloat does). -/
def parseExp (l : List Char) : Int :=
  match l with
  | [] => 0
  | c :: r =>
      if c = 'e' ∨ c = 'E' then
        let p := parseSign r
        let ed := p.2.takeWhile Char.isDigit
        if ed.isEmpty then 0 else p.1 * (digitsToNat ed : Int)
      else 0

/-- JS parseFloat on a character sequence: skip whitespace, optional sign,
then either the Infinity literal (signed) or integer digits, optional
fraction and optional exponent; the longest valid numeric prefix is
converted, and NaN (no digits and no Infinity) is the result otherwise. -/
def parseFloatChars (l : List Char) : JsNum :=
  let l1 := l.dropWhile jsSpace
  let p := parseSign l1
  if isInfinityPrefix p.2 then (if p.1 = -1 then .negInf else .posInf)
  else
    let ip := p.2.takeWhile Char.isDigit
    let r1 := p.2.dropWhile Char.isDigit
    let q := splitFrac r1
    if ip.isEmpty ∧ q.1.isEmpty then .nan
    else
      .fin ((p.1 : Rat) * ((digitsToNat ip : Rat) + (digitsToNat q.1 : Rat) / (10 : Rat) ^ q.1.length)
        * (10 : Rat) ^ parseExp q.2)

/-- parseFloat as applied by the loader to an entry field. JS coerces the
argument to a string first; null and undefined coerce to non-numeric text
and yield NaN. Finite numbers round-trip through their decimal
representation. -/
def parseFloat : JValue → JsNum
  | .num q => .fin q
  | .str s => parseFloatChars s.data
  | .null => .nan
  | .undef => .nan

/-- One raw record of codex.json, with the fields the loader reads.
Fields absent from a JSON object read as undefined in JS. -/
structure Entry where
  english_name : JValue := .undef
  created_at : JValue := .undef
  reported_at : JValue := .undef
  cmdrName : JValue := .undef
  system : JValue := .undef
  x : JValue := .undef
  y : JValue := .undef
  z : JValue := .undef
  body : JValue := .undef
  latitude : JValue := .undef
  longitude : JValue := .undef
  entryid : JValue := .undef
  name : JValue := .undef
  category : JValue := .undef
  sub_category : JValue := .undef
  sub_category_localised : JValue := .undef
  region_name : JValue := .undef
  id64 : JValue := .undef
  hud_category : JValue := .undef
deriving DecidableEq, Repr

/-- The 18-element parameter row built at src/index.js lines 69-88: the
coordinate fields pass through parseFloat, everything else is passed as is. -/
structure Row where
  english_name : JValue
  created_at : JValue
  reported_at : JValue
  cmdrName : JValue
  system : JValue
  x : JsNum
  y : JsNum
  z : JsNum
  body : JValue
  latitude : JsNum
  longitude : JsNum
  entryid : JValue
  name : JValue
  category : JValue
  sub_category : JValue
  sub_category_localised : JValue
  region_name : JValue
  id64 : JValue
deriving DecidableEq, Repr

/-- The per-entry transform of the loader (lines 69-88 of the loader). -/
def rowOfEntry (e : Entry) : Row :=
  { english_name := e.english_name
    created_at := e.created_at
    reported_at := e.reported_at
    cmdrName := e.cmdrName
    system := e.system
    x := parseFloat e.x
    y := parseFloat e.y
    z := parseFloat e.z
    body := e.body
    latitude := parseFloat e.latitude
    longitude := parseFloat e.longitude
    entryid := e.entryid
    name := e.name
    category := e.category
    sub_category := e.sub_category
    sub_category_localised := e.sub_category_localised
    region_name := e.region_name
    id64 := e.id64 }

/-- The filter at line 65: only entries with hud_category strictly equal to
the string "Biology" are processed. -/
def accept (e : Entry) : Bool := e.hud_category = JValue.str "Biology"

/-- Rows the loader accepts from an input sequence, in order. -/
def acceptedRows (l : List Entry) : List Row := (l.filter accept).map rowOfEntry

/-- Outcome of one load run: the rows actually written to the store in
order, the number of flush episodes (batch write loops that issued at
least one INSERT), the accepted-record counter, and how the promise
settled (none = resolve, some e = reject e). -/
structure LoadResult (ε : Type) where
  written : List Row
  flushes : Nat
  count : Nat
  result : Option ε
deriving Repr

/-- Write a batch row by row (the for loop over pool.query at lines 94-96
and 113-115), stopping at the first failing insert. Returns the rows
durably written and the error, if any. -/
def writeBatch {ε : Type} (write : Row → Except ε Unit) : List Row → List Row × Option ε
  | [] => ([], none)
  | r :: rs =>
      match write r with
      | .error e => ([], some e)
      | .ok _ =>
          let p := writeBatch write rs
          (r :: p.1, p.2)

/-- The event loop of insertData (src/index.js lines 54-126). Arguments:
the remaining input entries, the accepted counter, the pending batch, the
rows written so far and the flush episodes so far. A full batch is written
while the stream is paused; a write error destroys the stream (no further
entries are consumed) and rejects; on end the remaining partial batch is
written. -/
def loadLoop {ε : Type} (write : Row → Except ε Unit) (B : Nat) :
    List Entry → Nat → List Row → List Row → Nat → LoadResult ε
  | [], count, batch, written, flushes =>
      let p := writeBatch write batch
      { written := written ++ p.1
        flushes := flushes + (if batch.isEmpty then 0 else 1)
        count := count
        result := p.2 }
  | e :: rest, count, batch, written, flushes =>
      if accept e then
        let batch1 := batch ++ [rowOfEntry e]
        if B ≤ batch1.length then
          let p := writeBatch write batch1
          match p.2 with
          | some err =>
              { written := written ++ p.1, flushes := flushes + 1
                count := count + 1, result := some err }
          | none => loadLoop write B rest (count + 1) [] (written ++ p.1) (flushes + 1)
        else loadLoop write B rest (count + 1) batch1 written flushes
      else loadLoop write B rest count batch written flushes

/-- insertData with batchSize 1000 (line 59). -/
def insertData {ε : Type} (write : Row → Except ε Unit) (entries : List Entry) : LoadResult ε :=
  loadLoop write 1000 entries 0 [] [] 0

/-- A store in which every single-row insert succeeds. -/
def okWrite : Row → Except String Unit := fun _ => .ok ()

/- ------------------------------------------------------------------
   Phase 2: the relational state and the normalizer.
   ------------------------------------------------------------------ -/

/-- Every column name of codex_entries that any statement of the program
references: the 19 columns created by createTable, the legacy columns that
cleanUpColumns drops defensively, the localised region column probed by
normalizeData, and the three foreign-key columns added by phase 2. -/
inductive Col where
  | id | english_name | created_at | reported_at | cmdrName | system
  | x | y | z | body | latitude | longitude | entryid | name | category
  | sub_category | sub_category_localised | region_name | id64
  | index_id | hud_category | name_localized | category_localized
  | region_name_localised | species_id | system_id | body_id
deriving DecidableEq, Repr

/-- One stored row of codex_entries, with a field per possible column.
A field is meaningful only while its column is present in the table;
dropping a column erases the field (see clearCol). -/
structure CodexRow where
  rid : Nat := 0
  english_name : Option String := none
  created_at : Option String := none
  reported_at : Option String := none
  cmdrName : Option String := none
  system : Option String := none
  x : Option Rat := none
  y : Option Rat := none
  z : Option Rat := none
  body : Option String := none
  latitude : Option Rat := none
  longitude : Option Rat := none
  entryid : Option Int := none
  name : Option String := none
  category : Option String := none
  sub_category : Option String := none
  sub_category_localised : Option String := none
  region_name : Option String := none
  id64 : Option Int := none
  index_id : Option Int := none
  hud_category : Option String := none
  name_localized : Option String := none
  category_localized : Option String := none
  region_name_localised : Option String := none
  species_id : Option Nat := none
  system_id : Option Nat := none
  body_id : Option Nat := none
deriving DecidableEq, Repr

/-- Erase the data of one column in a row (the effect of DROP COLUMN on
stored data). The id column is the primary key and is never dropped by
the program; clearing it is a no-op. -/
def clearCol (c : Col) (r : CodexRow) : CodexRow :=
  match c with
  | .id => r
  | .english_name => { r with english_name := none }
  | .created_at => { r with created_at := none }
  | .reported_at => { r with reported_at := none }
  | .cmdrName => { r with cmdrName := none }
  | .system => { r with system := none }
  | .x => { r with x := none }
  | .y => { r with y := none }
  | .z => { r with z := none }
  | .body => { r with body := none }
  | .latitude => { r with latitude := none }
  | .longitude => { r with longitude := none }
  | .entryid => { r with entryid := none }
  | .name => { r with name := none }
  | .category => { r with category := none }
  | .sub_category => { r with sub_category := none }
  | .sub_category_localised => { r with sub_category_localised := none }
  | .region_name => { r with region_name := none }
  | .id64 => { r with id64 := none }
  | .index_id => { r with index_id := none }
  | .hud_category => { r with hud_category := none }
  | .name_localized => { r with name_localized := none }
  | .category_localized => { r with category_localized := none }
  | .region_name_localised => { r with region_name_localised := none }
  | .species_id => { r with species_id := none }
  | .system_id => { r with system_id := none }
  | .body_id => { r with body_id := none }

/-- The codex_entries table: its current column set and its rows. -/
structure CodexTable where
  cols : List Col
  rows : List CodexRow
deriving DecidableEq, Repr

/-- ALTER TABLE ... DROP COLUMN IF EXISTS c: a no-op when the column is
absent, otherwise the column and its data are removed. -/
def dropColIfExists (c : Col) (t : CodexTable) : CodexTable :=
  if c ∈ t.cols then { cols := t.cols.erase c, rows := t.rows.map (clearCol c) } else t

/-- ALTER TABLE ... ADD COLUMN c (no IF NOT EXISTS): fails when the column
already exists. The new column is NULL on every existing row. -/
def addColOrFail (c : Col) (t : CodexTable) : Except String CodexTable :=
  if c ∈ t.cols then .error "column already exists"
  else .ok { t with cols := t.cols ++ [c] }

/-- The column set of the codex_entries table as created by phase 1's
createTable (src/index.js lines 9-41). -/
def phase1Cols : List Col :=
  [.id, .english_name, .created_at, .reported_at, .cmdrName, .system,
   .x, .y, .z, .body, .latitude, .longitude, .entryid, .name, .category,
   .sub_category, .sub_category_localised, .region_name, .id64]

/-- CREATE TABLE IF NOT EXISTS codex_entries: keeps an existing table,
otherwise produces the empty table with the phase-1 columns. -/
def createTable (existing : Option CodexTable) : CodexTable :=
  match existing with
  | some t => t
  | none => { cols := phase1Cols, rows := [] }

/-- An auxiliary table: its rows and its SERIAL sequence counter (the next
id to be handed out; nextval is consumed even by a conflicting insert). -/
structure Table (ρ : Type) where
  rows : List ρ
  seq : Nat
deriving DecidableEq, Repr

/-- A freshly created auxiliary table. -/
def freshTable {ρ : Type} : Table ρ := { rows := [], seq := 1 }

/-- INSERT ... ON CONFLICT (key) DO NOTHING over a list of candidate
items: each item consumes a serial id; an item whose natural key is
already present in the table is silently skipped, otherwise the row made
from the id and the item is appended. -/
def insertCS {ρ κ ι : Type} [DecidableEq κ] (key : ρ → κ) (mk : Nat → ι → ρ) (keyOf : ι → κ) :
    Table ρ → List ι → Table ρ
  | t, [] => t
  | t, i :: is =>
      if keyOf i ∈ t.rows.map key then
        insertCS key mk keyOf { rows := t.rows, seq := t.seq + 1 } is
      else
        insertCS key mk keyOf { rows := t.rows ++ [mk t.seq i], seq := t.seq + 1 } is

/-- Recursion of firstOccDedup: keep an element unless already seen. -/
def firstOccDedupGo {α : Type} [DecidableEq α] (seen : List α) : List α → List α
  | [] => []
  | a :: r => if a ∈ seen then firstOccDedupGo seen r else a :: firstOccDedupGo (a :: seen) r

/-- SELECT DISTINCT: deduplication keeping the first occurrence of each
value (the program relies on no particular SQL ordering; the embedding
fixes the deterministic first-occurrence order). -/
def firstOccDedup {α : Type} [DecidableEq α] : List α → List α :=
  firstOccDedupGo []

/-- Row of the species table (UNIQUE english_name). -/
structure SpeciesRow where
  sid : Nat
  english_name : String
deriving DecidableEq, Repr

/-- Row of the regions table (UNIQUE name, optional localised name). -/
structure RegionRow where
  sid : Nat
  name : String
  name_localised : Option String
deriving DecidableEq, Repr

/-- Row of the systems table (UNIQUE name, coordinates, optional region). -/
structure SystemRow where
  sid : Nat
  name : String
  x : Option Rat
  y : Option Rat
  z : Option Rat
  region_id : Option Nat
deriving DecidableEq, Repr

/-- Row of the bodies table (UNIQUE (name, system_id)). -/
structure BodyRow where
  sid : Nat
  name : String
  system_id : Option Nat
deriving DecidableEq, Repr

/-- The whole database state phase 2 operates on. An auxiliary table that
is none does not exist. -/
structure DB where
  codex : CodexTable
  species : Option (Table SpeciesRow) := none
  regions : Option (Table RegionRow) := none
  systems : Option (Table SystemRow) := none
  bodies : Option (Table BodyRow) := none
deriving DecidableEq, Repr

/-- A statement referencing a column fails when the column is absent. -/
def requireCol (t : CodexTable) (c : Col) : Except String Unit :=
  if c ∈ t.cols then .ok () else .error "column does not exist"

/-- A statement referencing a table fails when the table is absent. -/
def requireTable {ρ : Type} (o : Option (Table ρ)) : Except String (Table ρ) :=
  match o with
  | some t => .ok t
  | none => .error "table does not exist"

/-- createNormalizedTables (src/index.js lines 146-206): drop the three
foreign-key columns if they exist, drop the four auxiliary tables, create
them afresh, and add the three foreign-key columns (plain ADD COLUMN:
it would fail on a pre-existing column, but the drops guarantee absence). -/
def createNormalizedTables (db : DB) : Except String DB := do
  let c1 := dropColIfExists .species_id db.codex
  let c2 := dropColIfExists .system_id c1
  let c3 := dropColIfExists .body_id c2
  let c4 ← addColOrFail .species_id c3
  let c5 ← addColOrFail .system_id c4
  let c6 ← addColOrFail .body_id c5
  .ok { codex := c6, species := some freshTable, regions := some freshTable,
        systems := some freshTable, bodies := some freshTable }

/-- The column-existence probe of normalizeData (lines 211-239). -/
structure Probe where
  has_english_name : Bool
  has_region_name : Bool
  has_region_name_localised : Bool
  has_system : Bool
deriving DecidableEq, Repr

/-- SELECT EXISTS from information_schema.columns for the four legacy
columns. -/
def probeColumns (t : CodexTable) : Probe :=
  { has_english_name := Col.english_name ∈ t.cols
    has_region_name := Col.region_name ∈ t.cols
    has_region_name_localised := Col.region_name_localised ∈ t.cols
    has_system := Col.system ∈ t.cols }

/-- SELECT DISTINCT english_name FROM codex_entries WHERE english_name IS
NOT NULL. -/
def speciesItems (rows : List CodexRow) : List String :=
  firstOccDedup (rows.filterMap (fun r => r.english_name))

/-- SELECT DISTINCT region_name, region_name_localised ... WHERE
region_name IS NOT NULL (the branch taken when the localised column
exists). -/
def regionItemsLoc (rows : List CodexRow) : List (String × Option String) :=
  firstOccDedup (rows.filterMap (fun r => r.region_name.map (fun nm => (nm, r.region_name_localised))))

/-- SELECT DISTINCT region_name ... WHERE region_name IS NOT NULL (the
branch taken when the localised column is absent). -/
def regionItems (rows : List CodexRow) : List String :=
  firstOccDedup (rows.filterMap (fun r => r.region_name))

/-- Scalar LEFT JOIN of a codex row's region_name against the regions
table: none when region_name is NULL or no region matches. -/
def regionIdFor (reg : Table RegionRow) (rn : Option String) : Option Nat :=
  rn.bind (fun nm => (reg.rows.find? (fun rr => rr.name == nm)).map (fun rr => rr.sid))

/-- The system_data CTE with the region join (lines 283-296): DISTINCT
(system, x, y, z, region id) for rows whose system is not NULL. -/
def systemItemsR (reg : Table RegionRow) (rows : List CodexRow) :
    List (String × Option Rat × Option Rat × Option Rat × Option Nat) :=
  firstOccDedup (rows.filterMap (fun r =>
    r.system.map (fun nm => (nm, r.x, r.y, r.z, regionIdFor reg r.region_name))))

/-- The system_data CTE without a region column (lines 298-311): DISTINCT
(system, x, y, z) for rows whose system is not NULL. -/
def systemItems (rows : List CodexRow) :
    List (String × Option Rat × Option Rat × Option Rat) :=
  firstOccDedup (rows.filterMap (fun r => r.system.map (fun nm => (nm, r.x, r.y, r.z))))

/-- The body_data CTE (lines 321-333): DISTINCT (body, system id) for rows
whose body is not NULL, inner-joined on system name. -/
def bodyItems (sys : Table SystemRow) (rows : List CodexRow) : List (String × Nat) :=
  firstOccDedup (rows.filterMap (fun r =>
    match r.body, r.system with
    | some b, some s => (sys.rows.find? (fun sr => sr.name == s)).map (fun sr => (b, sr.sid))
    | _, _ => none))

/-- Species insertion with conflict skip on english_name. -/
def insertSpeciesTable (t : Table SpeciesRow) (rows : List CodexRow) : Table SpeciesRow :=
  insertCS (fun r => r.english_name) (fun i nm => { sid := i, english_name := nm })
    (fun nm => nm) t (speciesItems rows)

/-- Region insertion (localised variant) with conflict skip on name. -/
def insertRegionsTableLoc (t : Table RegionRow) (rows : List CodexRow) : Table RegionRow :=
  insertCS (fun r => r.name) (fun i p => { sid := i, name := p.1, name_localised := p.2 })
    (fun p => p.1) t (regionItemsLoc rows)

/-- Region insertion (plain variant) with conflict skip on name; the
localised name of every inserted row is NULL. -/
def insertRegionsTable (t : Table RegionRow) (rows : List CodexRow) : Table RegionRow :=
  insertCS (fun r => r.name) (fun i nm => { sid := i, name := nm, name_localised := none })
    (fun nm => nm) t (regionItems rows)

/-- System insertion with the region join, conflict skip on name. -/
def insertSystemsTableR (reg : Table RegionRow) (t : Table SystemRow) (rows : List CodexRow) :
    Table SystemRow :=
  insertCS (fun r => r.name)
    (fun i p => { sid := i, name := p.1, x := p.2.1, y := p.2.2.1, z := p.2.2.2.1, region_id := p.2.2.2.2 })
    (fun p => p.1) t (systemItemsR reg rows)

/-- System insertion without a region column, conflict skip on name; the
region reference of every inserted row is NULL. -/
def insertSystemsTable (t : Table SystemRow) (rows : List CodexRow) : Table SystemRow :=
  insertCS (fun r => r.name)
    (fun i p => { sid := i, name := p.1, x := p.2.1, y := p.2.2.1, z := p.2.2.2, region_id := none })
    (fun p => p.1) t (systemItems rows)

/-- Body insertion, conflict skip on (name, system_id). -/
def insertBodiesTable (sys : Table SystemRow) (t : Table BodyRow) (rows : List CodexRow) :
    Table BodyRow :=
  insertCS (fun r => (r.name, r.system_id))
    (fun i p => { sid := i, name := p.1, system_id := some p.2 })
    (fun p => (p.1, some p.2)) t (bodyItems sys rows)

/-- The WHERE clause of the backfill UPDATE (lines 356-368): an OR of the
conditions contributed by the columns found present. -/
def updWhere (hasE hasS : Bool) (r : CodexRow) : Bool :=
  (hasE && r.english_name.isSome) || (hasS && (r.system.isSome || r.body.isSome))

/-- The SET clauses of the backfill UPDATE applied to one row: correlated
scalar subqueries into species, systems and bodies for whichever legacy
columns are present. A row not matching the WHERE clause is unchanged. -/
def applyUpdate (hasE hasS : Bool) (sp : Table SpeciesRow) (sys : Table SystemRow)
    (bd : Table BodyRow) (r : CodexRow) : CodexRow :=
  if updWhere hasE hasS r then
    let r1 := if hasE then
        { r with species_id :=
            r.english_name.bind (fun nm =>
              (sp.rows.find? (fun s => s.english_name == nm)).map (fun s => s.sid)) }
      else r
    if hasS then
      { r1 with
          system_id :=
            r1.system.bind (fun nm =>
              (sys.rows.find? (fun s => s.name == nm)).map (fun s => s.sid))
          body_id :=
            r1.body.bind (fun b =>
              r1.system.bind (fun snm =>
                (sys.rows.find? (fun s => s.name == snm)).bind (fun s =>
                  (bd.rows.find? (fun br => br.name == b && br.system_id == some s.sid)).map
                    (fun br => br.sid)))) }
    else r1
  else r

/-- The species branch of normalizeData (lines 242-253). -/
def insertSpeciesStep (db : DB) : Except String DB := do
  let _ ← requireCol db.codex .english_name
  let sp ← requireTable db.species
  .ok { db with species := some (insertSpeciesTable sp db.codex.rows) }

/-- The regions branch of normalizeData (lines 256-277), choosing the
localised or plain INSERT according to the probe. -/
def insertRegionsStep (hasLoc : Bool) (db : DB) : Except String DB := do
  let _ ← requireCol db.codex .region_name
  let rg ← requireTable db.regions
  if hasLoc then do
    let _ ← requireCol db.codex .region_name_localised
    .ok { db with regions := some (insertRegionsTableLoc rg db.codex.rows) }
  else
    .ok { db with regions := some (insertRegionsTable rg db.codex.rows) }

/-- The systems branch of normalizeData (lines 280-317), with or without
the region join according to the probe. -/
def insertSystemsStep (hasRegion : Bool) (db : DB) : Except String DB := do
  let _ ← requireCol db.codex .system
  let _ ← requireCol db.codex .x
  let _ ← requireCol db.codex .y
  let _ ← requireCol db.codex .z
  let sys ← requireTable db.systems
  if hasRegion then do
    let _ ← requireCol db.codex .region_name
    let rg ← requireTable db.regions
    .ok { db with systems := some (insertSystemsTableR rg sys db.codex.rows) }
  else
    .ok { db with systems := some (insertSystemsTable sys db.codex.rows) }

/-- The bodies branch of normalizeData (lines 320-337). -/
def insertBodiesStep (db : DB) : Except String DB := do
  let _ ← requireCol db.codex .body
  let _ ← requireCol db.codex .system
  let sys ← requireTable db.systems
  let bd ← requireTable db.bodies
  .ok { db with bodies := some (insertBodiesTable sys bd db.codex.rows) }

/-- The backfill UPDATE of normalizeData (lines 339-371), issued only when
at least one SET clause was assembled. -/
def updateFKsStep (p : Probe) (db : DB) : Except String DB :=
  if p.has_english_name || p.has_system then do
    let _ ← if p.has_english_name then do
        let _ ← requireCol db.codex .english_name
        let _ ← requireCol db.codex .species_id
        let _ ← requireTable db.species
        (.ok () : Except String Unit)
      else .ok ()
    let _ ← if p.has_system then do
        let _ ← requireCol db.codex .system
        let _ ← requireCol db.codex .body
        let _ ← requireCol db.codex .system_id
        let _ ← requireCol db.codex .body_id
        let _ ← requireTable db.systems
        let _ ← requireTable db.bodies
        (.ok () : Except String Unit)
      else .ok ()
    let sp := (db.species.getD freshTable)
    let sys := (db.systems.getD freshTable)
    let bd := (db.bodies.getD freshTable)
    .ok { db with codex := { db.codex with
            rows := db.codex.rows.map (applyUpdate p.has_english_name p.has_system sp sys bd) } }
  else .ok db

/-- normalizeData (src/index.js lines 208-377): probe once, then run the
four conditional population branches and the conditional backfill. -/
def normalizeData (db : DB) : Except String DB := do
  let p := probeColumns db.codex
  let db1 ← if p.has_english_name then insertSpeciesStep db else .ok db
  let db2 ← if p.has_region_name then insertRegionsStep p.has_region_name_localised db1 else .ok db1
  let db3 ← if p.has_system then insertSystemsStep p.has_region_name db2 else .ok db2
  let db4 ← if p.has_system then insertBodiesStep db3 else .ok db3
  updateFKsStep p db4

/-- The columns dropped by cleanUpColumns (lines 379-401), in order. -/
def cleanupList : List Col :=
  [.index_id, .hud_category, .name, .system, .x, .y, .z, .body,
   .name_localized, .category_localized, .region_name, .region_name_localised]

/-- cleanUpColumns: presence-tolerant removal of the superseded columns. -/
def cleanUpColumns (db : DB) : DB :=
  { db with codex := cleanupList.foldl (fun t c => dropColIfExists c t) db.codex }

/-- The normalize entry point main (lines 403-415): the three stages in
sequence; any stage failure aborts the run. -/
def normalizeMain (db : DB) : Except String DB := do
  let db1 ← createNormalizedTables db
  let db2 ← normalizeData db1
  .ok (cleanUpColumns db2)

/-- What a phase's process does at top level. -/
structure ProcOutcome where
  exitCode : Nat
  loggedError : Bool
  unhandledRejection : Bool
deriving DecidableEq, Repr

/-- Top level of the normalize phase: on error, main logs it and calls
process.exit(1); otherwise the process ends normally with status 0. -/
def normalizePhaseOutcome (r : Except String DB) : ProcOutcome :=
  match r with
  | .ok _ => { exitCode := 0, loggedError := false, unhandledRejection := false }
  | .error _ => { exitCode := 1, loggedError := true, unhandledRejection := false }

/-- Top level of the load phase (lines 129-139): the catch block logs the
error and does not rethrow, exit or set an exit code, so the promise of
main resolves and the process exits with status 0; no unhandled rejection
occurs. -/
def loadPhaseOutcome {ε : Type} (r : Except ε Unit) : ProcOutcome :=
  match r with
  | .ok _ => { exitCode := 0, loggedError := false, unhandledRejection := false }
  | .error _ => { exitCode := 0, loggedError := true, unhandledRejection := false }

/-- How the load phase's promise settles, derived from the loader run. -/
def loadRun {ε : Type} (write : Row → Except ε Unit) (entries : List Entry) : Except ε Unit :=
  match (insertData write entries).result with
  | some e => .error e
  | none => .ok ()

/- ------------------------------------------------------------------
   Concrete states used by the closed theorems below.
   ------------------------------------------------------------------ -/

/-- A flat row as a completed phase-1 load of one Biology record leaves it
(system Sol, body Earth, region Inner Orion Spur, coordinates 1, 2, 3). -/
def c4Row : CodexRow :=
  { rid := 1, english_name := some "Roseum Sinuous Tubers",
    created_at := some "2021-01-01 00:00:00", system := some "Sol",
    x := some 1, y := some 2, z := some 3, body := some "Earth",
    region_name := some "Inner Orion Spur" }

/-- A database produced by a completed phase-1 load: the flat table with
the phase-1 columns and one accepted row, no auxiliary tables. -/
def c4DB : DB := { codex := { cols := phase1Cols, rows := [c4Row] } }

/-- A database whose flat table has the phase-1 schema and no rows. -/
def c7DB : DB := { codex := { cols := phase1Cols, rows := [] } }

/-- An input record with the Biology category tag and nothing else. -/
def c9Entry : Entry := { hud_category := .str "Biology" }

/-- A store whose every single-row insert fails. -/
def c9Write : Row → Except String Unit := fun _ => .error "insert failed"

/-- Two accepted input records, distinguishable by their system field. -/
def e1 : Entry := { hud_category := .str "Biology", system := .str "Sol" }

/-- A second accepted record whose row the faulty store rejects. -/
def e2 : Entry := { hud_category := .str "Biology", system := .str "Achenar" }

/-- A store that fails exactly on the row loaded from e2. -/
def failWrite : Row → Except String Unit :=
  fun r => if r.system = .str "Achenar" then .error "boom" else .ok ()

/-- A flat database lacking the region_name column, with one row. -/
def c5DB : DB :=
  { codex :=
      { cols := phase1Cols.erase .region_name
        rows := [{ rid := 1, english_name := some "Roseum Sinuous Tubers",
                   system := some "Sol", x := some 1, y := some 2, z := some 3,
                   body := some "Earth" }] } }

/- ------------------------------------------------------------------
   Lemmas about the loader.
   ------------------------------------------------------------------ -/

theorem writeBatch_all_ok {ε : Type} (w : Row → Except ε Unit) (l : List Row)
    (h : ∀ r ∈ l, w r = .ok ()) : writeBatch w l = (l, none) := by
  induction l with
  | nil => rfl
  | cons r rs ih =>
      have hr := h r (by simp)
      simp [writeBatch, hr, ih (fun q hq => h q (by simp [hq]))]

theorem writeBatch_ok (l : List Row) : writeBatch okWrite l = (l, none) :=
  writeBatch_all_ok okWrite l (fun _ _ => rfl)

theorem writeBatch_fst_of_none {ε : Type} (w : Row → Except ε Unit) (l : List Row)
    (h : (writeBatch w l).2 = none) : (writeBatch w l).1 = l := by
  induction l with
  | nil => rfl
  | cons r rs ih =>
      cases hw : w r with
      | error e => simp [writeBatch, hw] at h
      | ok _ =>
          simp only [writeBatch, hw] at h ⊢
          simp [ih h]

theorem writeBatch_append {ε : Type} (w : Row → Except ε Unit) (a b : List Row) :
    writeBatch w (a ++ b) =
      match (writeBatch w a).2 with
      | some _ => writeBatch w a
      | none => ((writeBatch w a).1 ++ (writeBatch w b).1, (writeBatch w b).2) := by
  induction a with
  | nil => simp [writeBatch]
  | cons r rs ih =>
      cases hw : w r with
      | error e => simp [writeBatch, hw]
      | ok _ =>
          simp only [List.cons_append, writeBatch, hw, List.append_eq]
          rw [ih]
          cases hrs : (writeBatch w rs).2 <;> simp [hrs]

theorem writeBatch_fail_at {ε : Type} (w : Row → Except ε Unit) (pre post : List Row)
    (r : Row) (e : ε) (hpre : ∀ p ∈ pre, w p = .ok ()) (hr : w r = .error e) :
    writeBatch w (pre ++ r :: post) = (pre, some e) := by
  induction pre with
  | nil => simp [writeBatch, hr]
  | cons q qs ih =>
      have hq := hpre q (by simp)
      simp [writeBatch, hq, ih (fun p hp => hpre p (by simp [hp]))]

/-- The loader's event loop writes the pending batch followed by the
accepted rows of the remaining input, in order, stopping at the first
failing insert, and settles the way that sequential write does. -/
theorem loadLoop_spec {ε : Type} (w : Row → Except ε Unit) (B : Nat) (rest : List Entry) :
    ∀ (count : Nat) (batch written : List Row) (flushes : Nat),
      (loadLoop w B rest count batch written flushes).written
          = written ++ (writeBatch w (batch ++ acceptedRows rest)).1
      ∧ (loadLoop w B rest count batch written flushes).result
          = (writeBatch w (batch ++ acceptedRows rest)).2 := by
  induction rest with
  | nil => intro count batch written flushes; simp [loadLoop, acceptedRows]
  | cons e rest ih =>
      intro count batch written flushes
      by_cases ha : accept e
      · have hrows : acceptedRows (e :: rest) = rowOfEntry e :: acceptedRows rest := by
          simp [acceptedRows, List.filter_cons, ha]
        have hassoc : batch ++ acceptedRows (e :: rest)
            = (batch ++ [rowOfEntry e]) ++ acceptedRows rest := by
          simp [hrows]
        rw [hassoc]
        simp only [loadLoop, if_pos ha]
        by_cases hb : B ≤ (batch ++ [rowOfEntry e]).length
        · rw [if_pos hb]
          cases hp : (writeBatch w (batch ++ [rowOfEntry e])).2 with
          | some err =>
              simp only [hp]
              rw [writeBatch_append w (batch ++ [rowOfEntry e]) (acceptedRows rest), hp]
              simp [hp]
          | none =>
              simp only [hp]
              have hfst := writeBatch_fst_of_none w (batch ++ [rowOfEntry e]) hp
              obtain ⟨ihw, ihr⟩ :=
                ih (count + 1) [] (written ++ (writeBatch w (batch ++ [rowOfEntry e])).1) (flushes + 1)
              simp only [List.nil_append] at ihw ihr
              rw [writeBatch_append w (batch ++ [rowOfEntry e]) (acceptedRows rest), hp]
              constructor
              · rw [ihw, hfst]; simp [List.append_assoc]
              · rw [ihr]
        · rw [if_neg hb]
          exact ih (count + 1) (batch ++ [rowOfEntry e]) written flushes
      · have hrows : acceptedRows (e :: rest) = acceptedRows rest := by
          simp [acceptedRows, List.filter_cons, ha]
        rw [hrows]
        simp only [loadLoop, if_neg ha]
        exact ih count batch written flushes

/-- Under a store that never fails, the loop's flush count is the ceiling
of the pending plus accepted rows over the batch size. -/
theorem loadLoop_flushes (B : Nat) (hB : 0 < B) (rest : List Entry) :
    ∀ (count : Nat) (batch written : List Row) (flushes : Nat), batch.length < B →
      (loadLoop okWrite B rest count batch written flushes).flushes
        = flushes + (batch.length + (rest.filter accept).length + (B - 1)) / B := by
  induction rest with
  | nil =>
      intro count batch written flushes hlen
      simp only [loadLoop, List.filter_nil, List.length_nil, Nat.add_zero]
      cases batch with
      | nil => simp [Nat.div_eq_of_lt (by omega : B - 1 < B)]
      | cons r rs =>
          have h1 : (r :: rs).length + (B - 1) = ((r :: rs).length - 1) + B := by
            simp; omega
          have h2 : (r :: rs).length - 1 < B := by
            simp at hlen ⊢; omega
          rw [h1, Nat.add_div_right _ hB, Nat.div_eq_of_lt h2]
          simp
  | cons e rest ih =>
      intro count batch written flushes hlen
      by_cases ha : accept e
      · have hflen : (List.filter accept (e :: rest)).length
            = (List.filter accept rest).length + 1 := by
          simp [List.filter_cons, ha]
        rw [hflen]
        simp only [loadLoop, if_pos ha]
        by_cases hb : B ≤ (batch ++ [rowOfEntry e]).length
        · rw [if_pos hb]
          rw [writeBatch_ok]
          have hBlen : batch.length + 1 = B := by
            simp at hb hlen; omega
          have hrec := ih (count + 1) [] (written ++ (batch ++ [rowOfEntry e])) (flushes + 1)
            (by simpa using hB)
          simp only [List.length_nil, Nat.zero_add] at hrec
          simp only [hrec]
          have hnum : batch.length + ((List.filter accept rest).length + 1) + (B - 1)
              = ((List.filter accept rest).length + (B - 1)) + B := by omega
          rw [hnum, Nat.add_div_right _ hB]
          omega
        · rw [if_neg hb]
          have hlen1 : (batch ++ [rowOfEntry e]).length < B := by
            simp at hb ⊢; omega
          have hrec := ih (count + 1) (batch ++ [rowOfEntry e]) written flushes hlen1
          rw [hrec]
          have hnum : (batch ++ [rowOfEntry e]).length + (List.filter accept rest).length + (B - 1)
              = batch.length + ((List.filter accept rest).length + 1) + (B - 1) := by
            simp; omega
          rw [hnum]
      · have hflen : (List.filter accept (e :: rest)).length
            = (List.filter accept rest).length := by
          simp [List.filter_cons, ha]
        rw [hflen]
        simp only [loadLoop, if_neg ha]
        exact ih count batch written flushes hlen

/- ------------------------------------------------------------------
   The claims about the loader.
   ------------------------------------------------------------------ -/

/-- A non-failing run writes exactly the accepted rows and resolves. -/
theorem insertData_ok_spec (entries : List Entry) :
    (insertData okWrite entries).written = acceptedRows entries
    ∧ (insertData okWrite entries).result = none := by
  have h := loadLoop_spec okWrite 1000 entries 0 [] [] 0
  simp only [List.nil_append] at h
  rcases h with ⟨h1, h2⟩
  constructor
  · rw [insertData, h1, writeBatch_ok]
  · rw [insertData, h2, writeBatch_ok]

/-- C1: in a non-failing run, the rows written to the flat table are
exactly the transformed images of the input records whose hud_category
equals "Biology", in input order — a row is appended if and only if the
record's category tag is the constant, all other records are silently
skipped, and the run resolves without error. -/
theorem claim_C1 (entries : List Entry) :
    (insertData okWrite entries).written = acceptedRows entries
    ∧ (insertData okWrite entries).result = none :=
  insertData_ok_spec entries

/-- C3: with batch size 1000, a non-failing run over an input with N
accepted records issues exactly ceil(N/1000) flush episodes (counting the
final partial-batch flush, which writes nothing when no rows are pending)
and writes exactly N rows — none dropped, none duplicated. -/
theorem claim_C3 (entries : List Entry) :
    (insertData okWrite entries).flushes = ((entries.filter accept).length + 999) / 1000
    ∧ (insertData okWrite entries).written.length = (entries.filter accept).length
    ∧ (insertData okWrite entries).result = none := by
  refine ⟨?_, ?_, (insertData_ok_spec entries).2⟩
  · have h := loadLoop_flushes 1000 (by omega) entries 0 [] [] 0 (by simp)
    simpa [insertData] using h
  · rw [(insertData_ok_spec entries).1, acceptedRows, List.length_map]

/-- C8: if the accepted rows split as pre ++ r :: post where every insert
of pre succeeds and the insert of r fails with e, then the load writes
exactly pre — the failing row is not skipped, no later row is written or
consumed — and the promise rejects with e. -/
theorem claim_C8 {ε : Type} (write : Row → Except ε Unit) (entries : List Entry)
    (pre post : List Row) (r : Row) (e : ε)
    (hsplit : acceptedRows entries = pre ++ r :: post)
    (hpre : ∀ p ∈ pre, write p = .ok ())
    (hr : write r = .error e) :
    (insertData write entries).written = pre
    ∧ (insertData write entries).result = some e := by
  have h := loadLoop_spec write 1000 entries 0 [] [] 0
  simp only [List.nil_append] at h
  rcases h with ⟨h1, h2⟩
  have hw := writeBatch_fail_at write pre post r e hpre hr
  rw [← hsplit] at hw
  constructor
  · rw [insertData, h1, hw]
  · rw [insertData, h2, hw]

/- ------------------------------------------------------------------
   Lemmas about parseFloat, and claim C2.
   ------------------------------------------------------------------ -/

theorem takeWhile_all {α : Type} (p : α → Bool) (d : List α)
    (h : ∀ c ∈ d, p c = true) : d.takeWhile p = d := by
  induction d with
  | nil => rfl
  | cons a d ih =>
      simp [List.takeWhile_cons, h a (by simp), ih (fun c hc => h c (by simp [hc]))]

theorem dropWhile_all {α : Type} (p : α → Bool) (d : List α)
    (h : ∀ c ∈ d, p c = true) : d.dropWhile p = [] := by
  induction d with
  | nil => rfl
  | cons a d ih =>
      simp [List.dropWhile_cons, h a (by simp), ih (fun c hc => h c (by simp [hc]))]

theorem takeWhile_append_all {α : Type} (p : α → Bool) (d r : List α)
    (h : ∀ c ∈ d, p c = true) : (d ++ r).takeWhile p = d ++ r.takeWhile p := by
  induction d with
  | nil => simp
  | cons a d ih =>
      simp [List.takeWhile_cons, h a (by simp), ih (fun c hc => h c (by simp [hc]))]

theorem dropWhile_append_all {α : Type} (p : α → Bool) (d r : List α)
    (h : ∀ c ∈ d, p c = true) : (d ++ r).dropWhile p = r.dropWhile p := by
  induction d with
  | nil => simp
  | cons a d ih =>
      simp [List.dropWhile_cons, h a (by simp), ih (fun c hc => h c (by simp [hc]))]

theorem digit_ne_chars {c : Char} (h : c.isDigit = true) :
    c ≠ '+' ∧ c ≠ '-' ∧ c ≠ '.' ∧ c ≠ 'I' := by
  refine ⟨?_, ?_, ?_, ?_⟩ <;>
    · intro he; subst he; exact absurd h (by decide)

theorem jsSpace_of_digit {c : Char} (h : c.isDigit = true) : jsSpace c = false := by
  simp only [jsSpace, Bool.or_eq_false_iff, beq_eq_false_iff_ne, ne_eq]
  repeat' apply And.intro
  all_goals (intro he; subst he; exact absurd h (by decide))

theorem isInfinityPrefix_cons_ne (c : Char) (rest : List Char) (h : c ≠ 'I') :
    isInfinityPrefix (c :: rest) = false := by
  have ht : (c :: rest).take 8 = c :: rest.take 7 := rfl
  simp [isInfinityPrefix, ht, h]

/-- A nonempty digit string followed by a point and digits parses to the
expected rational. -/
theorem parseFloatChars_digits (d1 d2 : List Char) (h1 : d1 ≠ [])
    (hd1 : ∀ c ∈ d1, c.isDigit = true) (hd2 : ∀ c ∈ d2, c.isDigit = true) :
    parseFloatChars (d1 ++ '.' :: d2)
      = .fin ((digitsToNat d1 : Rat) + (digitsToNat d2 : Rat) / (10 : Rat) ^ d2.length) := by
  obtain ⟨a, d1', rfl⟩ := List.exists_cons_of_ne_nil h1
  have ha := hd1 a (by simp)
  obtain ⟨hp, hm, -, hInc⟩ := digit_ne_chars ha
  have hspace := jsSpace_of_digit ha
  have hd1' : ∀ c ∈ d1', c.isDigit = true := fun c hc => hd1 c (by simp [hc])
  have hdotdig : ('.' : Char).isDigit = false := by decide
  have hdrop : (a :: (d1' ++ '.' :: d2)).dropWhile jsSpace = a :: (d1' ++ '.' :: d2) := by
    simp [List.dropWhile_cons, hspace]
  have hsign : parseSign (a :: (d1' ++ '.' :: d2)) = (1, a :: (d1' ++ '.' :: d2)) := by
    simp [parseSign, hp, hm]
  have hInf : isInfinityPrefix (a :: (d1' ++ '.' :: d2)) = false :=
    isInfinityPrefix_cons_ne a _ hInc
  have ht : (a :: (d1' ++ '.' :: d2)).takeWhile Char.isDigit = a :: d1' := by
    simp [List.takeWhile_cons, ha, takeWhile_append_all Char.isDigit d1' _ hd1',
      List.takeWhile_cons, hdotdig]
  have hdw : (a :: (d1' ++ '.' :: d2)).dropWhile Char.isDigit = '.' :: d2 := by
    simp [List.dropWhile_cons, ha, dropWhile_append_all Char.isDigit d1' _ hd1', hdotdig]
  have hsf : splitFrac ('.' :: d2) = (d2, []) := by
    simp [splitFrac, takeWhile_all Char.isDigit d2 hd2, dropWhile_all Char.isDigit d2 hd2]
  simp only [parseFloatChars, List.cons_append, hdrop, hsign, hInf, ht, hdw, hsf]
  simp [parseExp]

/-- A minus sign, digits, a point and digits parse to the negated value. -/
theorem parseFloatChars_neg_digits (d1 d2 : List Char) (h1 : d1 ≠ [])
    (hd1 : ∀ c ∈ d1, c.isDigit = true) (hd2 : ∀ c ∈ d2, c.isDigit = true) :
    parseFloatChars ('-' :: (d1 ++ '.' :: d2))
      = .fin (-((digitsToNat d1 : Rat) + (digitsToNat d2 : Rat) / (10 : Rat) ^ d2.length)) := by
  obtain ⟨a, d1', rfl⟩ := List.exists_cons_of_ne_nil h1
  have ha := hd1 a (by simp)
  obtain ⟨-, -, -, hInc⟩ := digit_ne_chars ha
  have hd1' : ∀ c ∈ d1', c.isDigit = true := fun c hc => hd1 c (by simp [hc])
  have hdotdig : ('.' : Char).isDigit = false := by decide
  have hdrop : ('-' :: (a :: (d1' ++ '.' :: d2))).dropWhile jsSpace
      = '-' :: (a :: (d1' ++ '.' :: d2)) := by
    simp [List.dropWhile_cons, jsSpace]
  have hsign : parseSign ('-' :: (a :: (d1' ++ '.' :: d2))) = (-1, a :: (d1' ++ '.' :: d2)) := by
    simp [parseSign]
  have hInf : isInfinityPrefix (a :: (d1' ++ '.' :: d2)) = false :=
    isInfinityPrefix_cons_ne a _ hInc
  have ht : (a :: (d1' ++ '.' :: d2)).takeWhile Char.isDigit = a :: d1' := by
    simp [List.takeWhile_cons, ha, takeWhile_append_all Char.isDigit d1' _ hd1',
      List.takeWhile_cons, hdotdig]
  have hdw : (a :: (d1' ++ '.' :: d2)).dropWhile Char.isDigit = '.' :: d2 := by
    simp [List.dropWhile_cons, ha, dropWhile_append_all Char.isDigit d1' _ hd1', hdotdig]
  have hsf : splitFrac ('.' :: d2) = (d2, []) := by
    simp [splitFrac, takeWhile_all Char.isDigit d2 hd2, dropWhile_all Char.isDigit d2 hd2]
  simp only [parseFloatChars, List.cons_append, hdrop, hsign, hInf, ht, hdw, hsf]
  simp [parseExp]

/-- A nonempty all-digit string parses to its integer value. -/
theorem parseFloatChars_int (d1 : List Char) (h1 : d1 ≠ [])
    (hd1 : ∀ c ∈ d1, c.isDigit = true) :
    parseFloatChars d1 = .fin (digitsToNat d1 : Rat) := by
  obtain ⟨a, d1', rfl⟩ := List.exists_cons_of_ne_nil h1
  have ha := hd1 a (by simp)
  obtain ⟨hp, hm, -, hInc⟩ := digit_ne_chars ha
  have hspace := jsSpace_of_digit ha
  have hd1' : ∀ c ∈ d1', c.isDigit = true := fun c hc => hd1 c (by simp [hc])
  have hdrop : (a :: d1').dropWhile jsSpace = a :: d1' := by
    simp [List.dropWhile_cons, hspace]
  have hsign : parseSign (a :: d1') = (1, a :: d1') := by
    simp [parseSign, hp, hm]
  have hInf : isInfinityPrefix (a :: d1') = false :=
    isInfinityPrefix_cons_ne a _ hInc
  have ht : (a :: d1').takeWhile Char.isDigit = a :: d1' :=
    takeWhile_all Char.isDigit _ hd1
  have hdw : (a :: d1').dropWhile Char.isDigit = [] :=
    dropWhile_all Char.isDigit _ hd1
  simp only [parseFloatChars, hdrop, hsign, hInf, ht, hdw, splitFrac]
  simp [parseExp, digitsToNat]

/-- A string whose first character is not whitespace, a sign, a digit, a
decimal point or the start of the Infinity literal parses to NaN. -/
theorem parseFloatChars_junk (c : Char) (rest : List Char)
    (hd : c.isDigit = false) (hdot : c ≠ '.') (hp : c ≠ '+') (hm : c ≠ '-')
    (hInc : c ≠ 'I') (hs : jsSpace c = false) :
    parseFloatChars (c :: rest) = .nan := by
  have hdrop : (c :: rest).dropWhile jsSpace = c :: rest := by
    simp [List.dropWhile_cons, hs]
  have hsign : parseSign (c :: rest) = (1, c :: rest) := by
    simp [parseSign, hp, hm]
  have hInf : isInfinityPrefix (c :: rest) = false :=
    isInfinityPrefix_cons_ne c rest hInc
  have ht : (c :: rest).takeWhile Char.isDigit = [] := by
    simp [List.takeWhile_cons, hd]
  have hdw : (c :: rest).dropWhile Char.isDigit = c :: rest := by
    simp [List.dropWhile_cons, hd]
  have hsf : splitFrac (c :: rest) = ([], c :: rest) := by
    simp [splitFrac, hdot]
  simp [parseFloatChars, hdrop, hsign, hInf, ht, hdw, hsf]

/-- C2: coordinate coercion. A coordinate field holding a valid numeric
string (digits, optional fraction, optional minus sign) becomes the equal
value; a missing field (undefined), a JSON null, the empty string or a
string whose first character can start no number at all becomes parseFloat's
NaN - the null marker - rather than an error; the signed Infinity literal,
the one non-decimal numeric string, coerces to the matching infinity (a
number, not the null marker); the transform touches exactly the five
coordinate fields through parseFloat; and no field content can make a run
abort - a run against a store that accepts every row always resolves. -/
theorem claim_C2 :
    (∀ (d1 d2 : List Char), d1 ≠ [] → (∀ c ∈ d1, c.isDigit = true) →
      (∀ c ∈ d2, c.isDigit = true) →
      parseFloat (.str (String.mk (d1 ++ '.' :: d2)))
          = .fin ((digitsToNat d1 : Rat) + (digitsToNat d2 : Rat) / (10 : Rat) ^ d2.length)
      ∧ parseFloat (.str (String.mk ('-' :: (d1 ++ '.' :: d2))))
          = .fin (-((digitsToNat d1 : Rat) + (digitsToNat d2 : Rat) / (10 : Rat) ^ d2.length))
      ∧ parseFloat (.str (String.mk d1)) = .fin (digitsToNat d1 : Rat))
    ∧ parseFloat .undef = .nan
    ∧ parseFloat .null = .nan
    ∧ parseFloat (.str (String.mk [])) = .nan
    ∧ (∀ rest : List Char,
        parseFloat (.str (String.mk
            ('I' :: 'n' :: 'f' :: 'i' :: 'n' :: 'i' :: 't' :: 'y' :: rest))) = .posInf
        ∧ parseFloat (.str (String.mk
            ('-' :: 'I' :: 'n' :: 'f' :: 'i' :: 'n' :: 'i' :: 't' :: 'y' :: rest))) = .negInf)
    ∧ (∀ (c : Char) (rest : List Char), c.isDigit = false → c ≠ '.' → c ≠ '+' → c ≠ '-' →
        c ≠ 'I' → jsSpace c = false → parseFloat (.str (String.mk (c :: rest))) = .nan)
    ∧ (∀ e : Entry, (rowOfEntry e).x = parseFloat e.x ∧ (rowOfEntry e).y = parseFloat e.y
        ∧ (rowOfEntry e).z = parseFloat e.z ∧ (rowOfEntry e).latitude = parseFloat e.latitude
        ∧ (rowOfEntry e).longitude = parseFloat e.longitude)
    ∧ (∀ entries : List Entry, (insertData okWrite entries).result = none) := by
  refine ⟨?_, rfl, rfl, rfl, fun rest => ⟨rfl, rfl⟩, ?_, ?_, ?_⟩
  · intro d1 d2 h1 hd1 hd2
    exact ⟨parseFloatChars_digits d1 d2 h1 hd1 hd2,
      parseFloatChars_neg_digits d1 d2 h1 hd1 hd2,
      parseFloatChars_int d1 h1 hd1⟩
  · intro c rest hd hdot hp hm hInc hs
    exact parseFloatChars_junk c rest hd hdot hp hm hInc hs
  · intro e
    exact ⟨rfl, rfl, rfl, rfl, rfl⟩
  · intro entries
    exact (insertData_ok_spec entries).2

/-- Witness for C8: two accepted records; the store accepts the first row
and rejects the second; the run writes only the first row and rejects. -/
theorem claim_C8_witness :
    (insertData failWrite [e1, e2]).written = [rowOfEntry e1]
    ∧ (insertData failWrite [e1, e2]).result = some "boom" :=
  claim_C8 failWrite [e1, e2] [rowOfEntry e1] [] (rowOfEntry e2) "boom" rfl
    (by intro p hp; rw [List.mem_singleton] at hp; subst hp; rfl) rfl


/- ------------------------------------------------------------------
   Lemmas about the normalizer.
   ------------------------------------------------------------------ -/

theorem exceptBind_ok {ε α β : Type} (a : α) (f : α → Except ε β) :
    (Except.ok a >>= f : Except ε β) = f a := rfl

/-- Conflict-skip insertion preserves a property held by every existing
row and every row the constructor can make. -/
theorem insertCS_all {ρ κ ι : Type} [DecidableEq κ] (key : ρ → κ) (mk : Nat → ι → ρ)
    (keyOf : ι → κ) (P : ρ → Prop) :
    ∀ (items : List ι) (t : Table ρ), (∀ r ∈ t.rows, P r) → (∀ i x, P (mk i x)) →
      ∀ r ∈ (insertCS key mk keyOf t items).rows, P r := by
  intro items
  induction items with
  | nil => intro t ht _ r hr; exact ht r hr
  | cons i is ih =>
      intro t ht hmk r hr
      simp only [insertCS] at hr
      by_cases hc : keyOf i ∈ t.rows.map key
      · rw [if_pos hc] at hr
        exact ih { rows := t.rows, seq := t.seq + 1 } ht hmk r hr
      · rw [if_neg hc] at hr
        refine ih { rows := t.rows ++ [mk t.seq i], seq := t.seq + 1 } ?_ hmk r hr
        intro q hq
        rcases List.mem_append.mp hq with hq | hq
        · exact ht q hq
        · rw [List.mem_singleton] at hq; subst hq; exact hmk _ _

/-- Conflict-skip insertion never creates a duplicate natural key. -/
theorem insertCS_nodup_keys {ρ κ ι : Type} [DecidableEq κ] (key : ρ → κ) (mk : Nat → ι → ρ)
    (keyOf : ι → κ) (hcoh : ∀ i x, key (mk i x) = keyOf x) :
    ∀ (items : List ι) (t : Table ρ), (t.rows.map key).Nodup →
      ((insertCS key mk keyOf t items).rows.map key).Nodup := by
  intro items
  induction items with
  | nil => intro t h; exact h
  | cons i is ih =>
      intro t h
      simp only [insertCS]
      by_cases hc : keyOf i ∈ t.rows.map key
      · rw [if_pos hc]; exact ih { rows := t.rows, seq := t.seq + 1 } h
      · rw [if_neg hc]
        refine ih { rows := t.rows ++ [mk t.seq i], seq := t.seq + 1 } ?_
        rw [List.map_append]
        simp only [List.map_cons, List.map_nil, hcoh]
        rw [List.nodup_append]
        exact ⟨h, List.nodup_singleton _, by simpa using hc⟩

/-- A row whose natural key is already present is never replaced: the
first written values win, later conflicting insertions are no-ops. -/
theorem insertCS_first_wins {ρ κ ι : Type} [DecidableEq κ] (key : ρ → κ) (mk : Nat → ι → ρ)
    (keyOf : ι → κ) (hcoh : ∀ i x, key (mk i x) = keyOf x) :
    ∀ (items : List ι) (t : Table ρ) (k : κ), k ∈ t.rows.map key →
      (insertCS key mk keyOf t items).rows.filter (fun r => decide (key r = k))
        = t.rows.filter (fun r => decide (key r = k)) := by
  intro items
  induction items with
  | nil => intro t k _; rfl
  | cons i is ih =>
      intro t k hk
      simp only [insertCS]
      by_cases hc : keyOf i ∈ t.rows.map key
      · rw [if_pos hc]; exact ih { rows := t.rows, seq := t.seq + 1 } k hk
      · rw [if_neg hc]
        have hne : keyOf i ≠ k := fun he => hc (he ▸ hk)
        have hstep := ih { rows := t.rows ++ [mk t.seq i], seq := t.seq + 1 } k
          (by simp only [List.map_append]; exact List.mem_append_left _ hk)
        rw [hstep]
        rw [List.filter_append]
        simp [hcoh, hne]

theorem dropColIfExists_of_not_mem {c : Col} {t : CodexTable} (h : c ∉ t.cols) :
    dropColIfExists c t = t := by
  simp [dropColIfExists, h]

theorem addColOrFail_of_not_mem {c : Col} {t : CodexTable} (h : c ∉ t.cols) :
    addColOrFail c t = .ok { t with cols := t.cols ++ [c] } := by
  simp [addColOrFail, h]

/-- Dropping a run of columns if they exist: the surviving column set is
the original minus the dropped list, and it stays duplicate-free. -/
theorem dropFold_cols (L : List Col) :
    ∀ (t : CodexTable), t.cols.Nodup →
      (L.foldl (fun t c => dropColIfExists c t) t).cols.Nodup
      ∧ ∀ c : Col, c ∈ (L.foldl (fun t c => dropColIfExists c t) t).cols
          ↔ c ∈ t.cols ∧ c ∉ L := by
  induction L with
  | nil => intro t h; simp [h]
  | cons a L ih =>
      intro t h
      simp only [List.foldl_cons]
      by_cases hm : a ∈ t.cols
      · have hstep : (dropColIfExists a t).cols = t.cols.erase a := by
          simp [dropColIfExists, hm]
        have hnd : (dropColIfExists a t).cols.Nodup := by
          rw [hstep]; exact h.erase a
        obtain ⟨ih1, ih2⟩ := ih (dropColIfExists a t) hnd
        refine ⟨ih1, fun c => ?_⟩
        rw [ih2 c, hstep, h.mem_erase_iff]
        simp only [List.mem_cons]
        tauto
      · have hstep : dropColIfExists a t = t := dropColIfExists_of_not_mem hm
        rw [hstep]
        obtain ⟨ih1, ih2⟩ := ih t h
        refine ⟨ih1, fun c => ?_⟩
        rw [ih2 c]
        simp only [List.mem_cons]
        constructor
        · rintro ⟨hc, hnin⟩
          exact ⟨hc, fun hor => hor.elim (fun he => hm (he ▸ hc)) hnin⟩
        · rintro ⟨hc, hn⟩
          exact ⟨hc, fun hL => hn (Or.inr hL)⟩

theorem insertSpeciesStep_ok (db : DB) (h : Col.english_name ∈ db.codex.cols)
    (sp : Table SpeciesRow) (hsp : db.species = some sp) :
    insertSpeciesStep db
      = .ok { db with species := some (insertSpeciesTable sp db.codex.rows) } := by
  unfold insertSpeciesStep requireCol requireTable
  rw [if_pos h, hsp]
  rfl

theorem insertSystemsStep_ok_noregion (db : DB)
    (h1 : Col.system ∈ db.codex.cols) (h2 : Col.x ∈ db.codex.cols)
    (h3 : Col.y ∈ db.codex.cols) (h4 : Col.z ∈ db.codex.cols)
    (sys : Table SystemRow) (hsys : db.systems = some sys) :
    insertSystemsStep false db
      = .ok { db with systems := some (insertSystemsTable sys db.codex.rows) } := by
  unfold insertSystemsStep requireCol requireTable
  rw [if_pos h1, if_pos h2, if_pos h3, if_pos h4, hsys]
  rfl

theorem insertBodiesStep_ok (db : DB)
    (h1 : Col.body ∈ db.codex.cols) (h2 : Col.system ∈ db.codex.cols)
    (sys : Table SystemRow) (hsys : db.systems = some sys)
    (bd : Table BodyRow) (hbd : db.bodies = some bd) :
    insertBodiesStep db
      = .ok { db with bodies := some (insertBodiesTable sys bd db.codex.rows) } := by
  unfold insertBodiesStep requireCol requireTable
  rw [if_pos h1, if_pos h2, hsys, hbd]
  rfl

theorem updateFKsStep_ok (p : Probe) (db : DB)
    (hpe : p.has_english_name = true) (hps : p.has_system = true)
    (h1 : Col.english_name ∈ db.codex.cols) (h2 : Col.species_id ∈ db.codex.cols)
    (h3 : Col.system ∈ db.codex.cols) (h4 : Col.body ∈ db.codex.cols)
    (h5 : Col.system_id ∈ db.codex.cols) (h6 : Col.body_id ∈ db.codex.cols)
    (sp : Table SpeciesRow) (sys : Table SystemRow) (bd : Table BodyRow)
    (hsp : db.species = some sp) (hsys : db.systems = some sys) (hbd : db.bodies = some bd) :
    updateFKsStep p db
      = .ok { db with codex := { db.codex with
          rows := db.codex.rows.map (applyUpdate true true sp sys bd) } } := by
  unfold updateFKsStep requireCol requireTable
  rw [hpe, hps, hsp, hsys, hbd]
  rw [if_pos h1, if_pos h2, if_pos h3, if_pos h4, if_pos h5, if_pos h6]
  rfl


/- ------------------------------------------------------------------
   Claims about the normalizer.
   ------------------------------------------------------------------ -/

/-- C4 evidence: on a database produced by a completed phase-1 load of one
Biology record, the first normalizer run populates one system, one region
and one body and backfills the row's references; running the normalizer a
second time also succeeds and leaves the column set identical, but it
empties the systems, regions and bodies tables and nulls the row's system
and body references, because the first run's cleanup dropped the legacy
source columns. The claimed idempotence therefore fails on the code. -/
theorem claim_C4 :
    ((normalizeMain c4DB).map (fun s =>
        ((s.systems.getD freshTable).rows.length, (s.regions.getD freshTable).rows.length,
         (s.bodies.getD freshTable).rows.length,
         s.codex.rows.map (fun r => (r.species_id, r.system_id, r.body_id))))
      = .ok (1, 1, 1, [(some 1, some 1, some 1)]))
    ∧ (((normalizeMain c4DB).bind normalizeMain).map (fun s =>
        ((s.systems.getD freshTable).rows.length, (s.regions.getD freshTable).rows.length,
         (s.bodies.getD freshTable).rows.length,
         s.codex.rows.map (fun r => (r.species_id, r.system_id, r.body_id))))
      = .ok (0, 0, 0, [(some 1, none, none)]))
    ∧ (normalizeMain c4DB).map (fun s => s.codex.cols)
        = ((normalizeMain c4DB).bind normalizeMain).map (fun s => s.codex.cols) :=
  ⟨rfl, rfl, rfl⟩

/-- Counterexample to C7 as stated: after cleanUpColumns runs on the
phase-1 flat table, the category, sub_category and sub_category_localised
columns are still present in codex_entries — the cleanup drops
hud_category and category_localized (which phase 1 never created) but not
the category columns the flat table actually has. -/
theorem claim_C7_counterexample :
    Col.category ∈ (cleanUpColumns c7DB).codex.cols
    ∧ Col.sub_category ∈ (cleanUpColumns c7DB).codex.cols
    ∧ Col.sub_category_localised ∈ (cleanUpColumns c7DB).codex.cols := by
  decide

/-- C7 (amended): cleanUpColumns removes, presence-tolerantly, exactly the
columns of its fixed drop list — index_id, hud_category, name, system, x,
y, z, body, name_localized, category_localized, region_name and
region_name_localised — and no others: a column survives if and only if it
was present and is not in the drop list; in particular category,
sub_category, sub_category_localised and english_name survive, and the
column set stays duplicate-free. -/
theorem claim_C7 (db : DB) (hnd : db.codex.cols.Nodup) :
    (cleanUpColumns db).codex.cols.Nodup
    ∧ ∀ c : Col, c ∈ (cleanUpColumns db).codex.cols ↔ c ∈ db.codex.cols ∧ c ∉ cleanupList :=
  dropFold_cols cleanupList db.codex hnd

/-- Witness for C7: the amended statement applied to the phase-1 schema at
the column x. -/
theorem claim_C7_witness :
    c7DB.codex.cols.Nodup
    ∧ (Col.x ∈ (cleanUpColumns c7DB).codex.cols ↔ Col.x ∈ c7DB.codex.cols ∧ Col.x ∉ cleanupList) :=
  ⟨by decide, (claim_C7 c7DB (by decide)).2 Col.x⟩

/-- Counterexample to C9 as stated: a load run in which every insert fails
still ends with exit code 0 and no unhandled rejection — main's catch
block logs the error and returns, so the failure never surfaces at the
process level. -/
theorem claim_C9_counterexample :
    loadPhaseOutcome (loadRun c9Write [c9Entry])
      = { exitCode := 0, loggedError := true, unhandledRejection := false } := rfl

/-- C9 (amended): on an unrecovered failure the normalize phase logs the
error and exits with status 1, but the load phase logs the error inside
main's catch block and absorbs it: the process exits with status 0 and no
unhandled rejection occurs. Successful runs exit 0 in both phases. -/
theorem claim_C9 :
    (∀ e : String, normalizePhaseOutcome (.error e)
        = { exitCode := 1, loggedError := true, unhandledRejection := false })
    ∧ (∀ e : String, loadPhaseOutcome (.error e : Except String Unit)
        = { exitCode := 0, loggedError := true, unhandledRejection := false })
    ∧ (∀ db : DB, normalizePhaseOutcome (.ok db)
        = { exitCode := 0, loggedError := false, unhandledRejection := false })
    ∧ (∀ entries : List Entry, loadPhaseOutcome (loadRun okWrite entries)
        = { exitCode := 0, loggedError := false, unhandledRejection := false }) := by
  refine ⟨fun _ => rfl, fun _ => rfl, fun _ => rfl, fun entries => ?_⟩
  rw [loadRun, (insertData_ok_spec entries).2]
  rfl


/-- C10: for every database whose flat table has the column set phase 1's
createTable produces (whatever its rows and whatever auxiliary tables are
lying around), the normalizer's probe reports region_name_localised as
absent, normalizeData succeeds taking the non-localised region branch,
and every Region row it inserts has a NULL localised name — the
localised-name insertion branch is unreachable in the shipped pipeline. -/
theorem claim_C10 (rows : List CodexRow) (sp : Option (Table SpeciesRow))
    (rg : Option (Table RegionRow)) (sy : Option (Table SystemRow))
    (bd : Option (Table BodyRow)) :
    createNormalizedTables
        { codex := createTable none, species := sp, regions := rg, systems := sy,
          bodies := bd }
      = createNormalizedTables
        { codex := { cols := phase1Cols, rows := [] }, species := sp, regions := rg,
          systems := sy, bodies := bd }
    ∧ createNormalizedTables
        { codex := { cols := phase1Cols, rows := rows }, species := sp, regions := rg,
          systems := sy, bodies := bd }
      = .ok { codex := { cols := phase1Cols ++ [Col.species_id, Col.system_id, Col.body_id],
                         rows := rows },
              species := some freshTable, regions := some freshTable,
              systems := some freshTable, bodies := some freshTable }
    ∧ (probeColumns { cols := phase1Cols ++ [Col.species_id, Col.system_id, Col.body_id],
                      rows := rows }).has_region_name_localised = false
    ∧ normalizeData
        { codex := { cols := phase1Cols ++ [Col.species_id, Col.system_id, Col.body_id],
                     rows := rows },
          species := some freshTable, regions := some freshTable,
          systems := some freshTable, bodies := some freshTable }
      = .ok { codex := { cols := phase1Cols ++ [Col.species_id, Col.system_id, Col.body_id],
                         rows := rows.map (applyUpdate true true
                  (insertSpeciesTable freshTable rows)
                  (insertSystemsTableR (insertRegionsTable freshTable rows) freshTable rows)
                  (insertBodiesTable
                    (insertSystemsTableR (insertRegionsTable freshTable rows) freshTable rows)
                    freshTable rows)) },
              species := some (insertSpeciesTable freshTable rows),
              regions := some (insertRegionsTable freshTable rows),
              systems := some (insertSystemsTableR (insertRegionsTable freshTable rows)
                freshTable rows),
              bodies := some (insertBodiesTable
                (insertSystemsTableR (insertRegionsTable freshTable rows) freshTable rows)
                freshTable rows) }
    ∧ ∀ rr ∈ (insertRegionsTable freshTable rows).rows, rr.name_localised = none := by
  refine ⟨rfl, rfl, rfl, rfl, ?_⟩
  intro rr hrr
  unfold insertRegionsTable at hrr
  exact insertCS_all (fun r => r.name)
    (fun i nm => { sid := i, name := nm, name_localised := none }) (fun nm => nm)
    (fun r => r.name_localised = none) (regionItems rows) freshTable
    (by intro q hq; simp [freshTable] at hq) (fun i x => rfl) rr hrr


/-- C6: natural-key uniqueness under conflict-skip. Generically, for any
table and any natural key, conflict-skip insertion keeps the key column
duplicate-free and never replaces the row that holds a key — first writer
wins, a later duplicate is a no-op, not an error (this covers the species,
region, system and body inserts, which are all instances of insertCS).
Concretely, normalizing a flat table holding two rows with the same system
name but different coordinates yields exactly one systems row for that
name, carrying the first row's coordinate values and the next serial
value burnt by the skipped duplicate. -/
theorem claim_C6 :
    (∀ (ρ κ ι : Type) (_instK : DecidableEq κ) (key : ρ → κ) (mk : Nat → ι → ρ)
        (keyOf : ι → κ) (items : List ι) (t : Table ρ),
        (∀ i x, key (mk i x) = keyOf x) → (t.rows.map key).Nodup →
        ((insertCS key mk keyOf t items).rows.map key).Nodup
        ∧ ∀ k ∈ t.rows.map key,
            (insertCS key mk keyOf t items).rows.filter (fun r => decide (key r = k))
              = t.rows.filter (fun r => decide (key r = k)))
    ∧ (∀ (r1 r2 : CodexRow) (nm : String),
        r1.system = some nm → r2.system = some nm →
        r1.region_name = none → r2.region_name = none →
        ¬(r1.x = r2.x ∧ r1.y = r2.y ∧ r1.z = r2.z) →
        (normalizeMain { codex := { cols := phase1Cols, rows := [r1, r2] } }).map
            (fun s => s.systems)
          = .ok (some { rows := [{ sid := 1, name := nm, x := r1.x, y := r1.y, z := r1.z,
                                   region_id := none }], seq := 3 })) := by
  constructor
  · intro ρ κ ι _instK key mk keyOf items t hcoh hnd
    exact ⟨insertCS_nodup_keys key mk keyOf hcoh items t hnd,
      fun k hk => insertCS_first_wins key mk keyOf hcoh items t k hk⟩
  · intro r1 r2 nm h1 h2 hr1 hr2 hne
    have hreg : insertRegionsTable freshTable [r1, r2] = freshTable := by
      simp [insertRegionsTable, regionItems, hr1, hr2, firstOccDedup, firstOccDedupGo,
        insertCS]
    have hne' : ¬((nm, r2.x, r2.y, r2.z, (none : Option Nat))
        = (nm, r1.x, r1.y, r1.z, (none : Option Nat))) := by
      intro hEq
      apply hne
      simp only [Prod.mk.injEq] at hEq
      exact ⟨hEq.2.1.symm, hEq.2.2.1.symm, hEq.2.2.2.1.symm⟩
    have hitems : systemItemsR freshTable [r1, r2]
        = [(nm, r1.x, r1.y, r1.z, (none : Option Nat)), (nm, r2.x, r2.y, r2.z, none)] := by
      simp [systemItemsR, h1, h2, hr1, hr2, regionIdFor, firstOccDedup, firstOccDedupGo,
        hne']
    have hsys2 : insertSystemsTableR (insertRegionsTable freshTable [r1, r2])
          freshTable [r1, r2]
        = { rows := [{ sid := 1, name := nm, x := r1.x, y := r1.y, z := r1.z,
                       region_id := none }], seq := 3 } := by
      rw [hreg]
      unfold insertSystemsTableR
      rw [hitems]
      simp [insertCS, freshTable]
    have hrun : (normalizeMain { codex := { cols := phase1Cols, rows := [r1, r2] } }).map
          (fun s => s.systems)
        = .ok (some (insertSystemsTableR (insertRegionsTable freshTable [r1, r2])
            freshTable [r1, r2])) := rfl
    rw [hrun, hsys2]


/-- normalizeData on a database whose flat table has the english, system,
coordinate, body and foreign-key columns but no region_name column:
species, systems and bodies are populated by the non-region queries, the
regions table is left untouched, and the backfill sets the species,
system and body references. -/
theorem normalizeData_noregion (db : DB)
    (hE : Col.english_name ∈ db.codex.cols) (hR : Col.region_name ∉ db.codex.cols)
    (hS : Col.system ∈ db.codex.cols) (hx : Col.x ∈ db.codex.cols)
    (hy : Col.y ∈ db.codex.cols) (hz : Col.z ∈ db.codex.cols)
    (hbody : Col.body ∈ db.codex.cols)
    (hspid : Col.species_id ∈ db.codex.cols) (hsyid : Col.system_id ∈ db.codex.cols)
    (hbdid : Col.body_id ∈ db.codex.cols)
    (spt : Table SpeciesRow) (rgt : Table RegionRow) (syt : Table SystemRow)
    (bdt : Table BodyRow) (hsp : db.species = some spt) (hrg : db.regions = some rgt)
    (hsys : db.systems = some syt) (hbd : db.bodies = some bdt) :
    normalizeData db = .ok
      { codex := { cols := db.codex.cols,
                   rows := db.codex.rows.map (applyUpdate true true
                     (insertSpeciesTable spt db.codex.rows)
                     (insertSystemsTable syt db.codex.rows)
                     (insertBodiesTable (insertSystemsTable syt db.codex.rows) bdt
                       db.codex.rows)) },
        species := some (insertSpeciesTable spt db.codex.rows),
        regions := some rgt,
        systems := some (insertSystemsTable syt db.codex.rows),
        bodies := some (insertBodiesTable (insertSystemsTable syt db.codex.rows) bdt
          db.codex.rows) } := by
  have hpE : (probeColumns db.codex).has_english_name = true := by
    simp [probeColumns, hE]
  have hpR : (probeColumns db.codex).has_region_name = false := by
    simp [probeColumns, hR]
  have hpRn : ¬((probeColumns db.codex).has_region_name = true) := by
    simp [probeColumns, hR]
  have hpS : (probeColumns db.codex).has_system = true := by
    simp [probeColumns, hS]
  simp only [normalizeData, hpE, hpR, hpS, eq_self_iff_true, if_true,
    Bool.false_eq_true, if_false]
  rw [insertSpeciesStep_ok db hE spt hsp]
  simp only [exceptBind_ok]
  rw [insertSystemsStep_ok_noregion
    { codex := db.codex, species := some (insertSpeciesTable spt db.codex.rows),
      regions := db.regions, systems := db.systems, bodies := db.bodies }
    hS hx hy hz syt hsys]
  simp only [exceptBind_ok]
  rw [insertBodiesStep_ok
    { codex := db.codex, species := some (insertSpeciesTable spt db.codex.rows),
      regions := db.regions, systems := some (insertSystemsTable syt db.codex.rows),
      bodies := db.bodies }
    hbody hS (insertSystemsTable syt db.codex.rows) rfl bdt hbd]
  simp only [exceptBind_ok]
  rw [updateFKsStep_ok (probeColumns db.codex)
    { codex := db.codex, species := some (insertSpeciesTable spt db.codex.rows),
      regions := db.regions, systems := some (insertSystemsTable syt db.codex.rows),
      bodies := some (insertBodiesTable (insertSystemsTable syt db.codex.rows) bdt
        db.codex.rows) }
    hpE hpS hE hspid hS hbody hsyid hbdid
    (insertSpeciesTable spt db.codex.rows) (insertSystemsTable syt db.codex.rows)
    (insertBodiesTable (insertSystemsTable syt db.codex.rows) bdt db.codex.rows)
    rfl rfl rfl]
  rw [hrg]

/-- C5: for every flat table lacking the region_name legacy column (while
holding the english_name, system, coordinate and body columns and not yet
carrying the foreign-key columns), running the normalizer succeeds:
Species, Systems and Bodies are populated exactly as the non-region
queries prescribe (every system row gets a NULL region reference by
insertSystemsTable's construction), Region population is skipped entirely
(the regions table stays freshly empty), no error is raised, and the
backfill still applies the species, system and body clauses — the ones
whose columns are present — to every row before cleanup. -/
theorem claim_C5 (db : DB)
    (habs : Col.region_name ∉ db.codex.cols)
    (heng : Col.english_name ∈ db.codex.cols) (hsys : Col.system ∈ db.codex.cols)
    (hx : Col.x ∈ db.codex.cols) (hy : Col.y ∈ db.codex.cols)
    (hz : Col.z ∈ db.codex.cols) (hbody : Col.body ∈ db.codex.cols)
    (hsp : Col.species_id ∉ db.codex.cols) (hsyid : Col.system_id ∉ db.codex.cols)
    (hbdid : Col.body_id ∉ db.codex.cols) :
    normalizeMain db = .ok (cleanUpColumns
      { codex := { cols := db.codex.cols ++ [Col.species_id] ++ [Col.system_id]
                     ++ [Col.body_id],
                   rows := db.codex.rows.map (applyUpdate true true
                     (insertSpeciesTable freshTable db.codex.rows)
                     (insertSystemsTable freshTable db.codex.rows)
                     (insertBodiesTable (insertSystemsTable freshTable db.codex.rows)
                       freshTable db.codex.rows)) },
        species := some (insertSpeciesTable freshTable db.codex.rows),
        regions := some freshTable,
        systems := some (insertSystemsTable freshTable db.codex.rows),
        bodies := some (insertBodiesTable (insertSystemsTable freshTable db.codex.rows)
          freshTable db.codex.rows) }) := by
  have h1 : dropColIfExists .species_id db.codex = db.codex := dropColIfExists_of_not_mem hsp
  have h2 : dropColIfExists .system_id db.codex = db.codex := dropColIfExists_of_not_mem hsyid
  have h3 : dropColIfExists .body_id db.codex = db.codex := dropColIfExists_of_not_mem hbdid
  have ha1 : addColOrFail .species_id db.codex
      = .ok { db.codex with cols := db.codex.cols ++ [Col.species_id] } :=
    addColOrFail_of_not_mem hsp
  have ha2 : addColOrFail .system_id { db.codex with cols := db.codex.cols ++ [Col.species_id] }
      = .ok { db.codex with
          cols := db.codex.cols ++ [Col.species_id] ++ [Col.system_id] } := by
    rw [addColOrFail_of_not_mem (by simp [hsyid])]
  have ha3 : addColOrFail .body_id
      { db.codex with cols := db.codex.cols ++ [Col.species_id] ++ [Col.system_id] }
      = .ok { db.codex with
          cols := db.codex.cols ++ [Col.species_id] ++ [Col.system_id] ++ [Col.body_id] } := by
    rw [addColOrFail_of_not_mem (by simp [hbdid])]
  have hA : createNormalizedTables db = .ok
      { codex := { db.codex with
            cols := db.codex.cols ++ [Col.species_id] ++ [Col.system_id] ++ [Col.body_id] },
        species := some freshTable, regions := some freshTable,
        systems := some freshTable, bodies := some freshTable } := by
    simp only [createNormalizedTables]
    rw [h1, h2, h3, ha1]
    simp only [exceptBind_ok]
    rw [ha2]
    simp only [exceptBind_ok]
    rw [ha3]
    simp only [exceptBind_ok]
  have hB := normalizeData_noregion
    { codex := { db.codex with
          cols := db.codex.cols ++ [Col.species_id] ++ [Col.system_id] ++ [Col.body_id] },
      species := some freshTable, regions := some freshTable,
      systems := some freshTable, bodies := some freshTable }
    (by simp [heng]) (by simp [habs]) (by simp [hsys]) (by simp [hx]) (by simp [hy])
    (by simp [hz]) (by simp [hbody]) (by simp) (by simp) (by simp)
    freshTable freshTable freshTable freshTable rfl rfl rfl rfl
  unfold normalizeMain
  rw [hA]
  simp only [exceptBind_ok]
  rw [hB]
  simp only [exceptBind_ok]

/-- Witness for C5: the flat table with the phase-1 columns minus
region_name and one row; the normalizer run succeeds and leaves the
regions table empty while systems has been populated. -/
theorem claim_C5_witness :
    (Col.region_name ∉ c5DB.codex.cols)
    ∧ ∃ s, normalizeMain c5DB = Except.ok s ∧ s.regions = some freshTable
        ∧ (s.systems.getD freshTable).rows.length = 1 := by
  refine ⟨by decide, ⟨_, claim_C5 c5DB (by decide) (by decide) (by decide) (by decide)
    (by decide) (by decide) (by decide) (by decide) (by decide) (by decide), rfl, rfl⟩⟩

end EdExo
